import Mathlib

/-!
# Verification of the ddft self-consistency engine against its specification

Shallow embedding in Lean 4 of the parts of the `ddft`/`dqc` repository that
the claims of the specification are about:

* `ddft/qccalcs/dft.py` — density-matrix construction (`__fock_to_dm`),
  normalization (`__normalize_dm`), the exchange-correlation model dispatch
  (`__get_eks_model`), the default eigensolver/solver option selection
  (`__get_default_eigen_options`, `__get_default_solve_options`) and the
  public density accessor (`density`).
* `ddft/modules/optimize.py` — the generic iterative optimizer
  (`OptimizationModule`, `_ForwardOpt`, `_BackwardOpt`) with its
  gradient-blocking backward policy.
* `ddft/hamiltons/hatomygauss.py` — the deterministic symmetry-breaking
  perturbation of the angular-momentum factors (`lhat`).
* `ddft/grids/radialgrid.py` — interpolation with zero-fill extrapolation
  (`LegendreRadialTransform.interpolate`).

Real tensors are modelled as rationals (`ℚ`); matrices as Mathlib matrices
over `ℚ`; Python functions that can raise are modelled in `Except String`.
-/

namespace Ddft

/-! ## Density-matrix construction and normalization (`ddft/qccalcs/dft.py`) -/

/-- Modelled from the spec: the integrated density of a density matrix.
`dft.__normalize_dm` computes `dens_tot = grid.integralbox(hmodel.dm2dens(dm).density)`;
`hmodel.dm2dens` and `grid.integralbox` live outside the provided sources, and
the spec states (data model of `DensityMatrix`, §6 `integrate`, §8
"Density normalization") that this integral is the trace of the density
matrix against the overlap operator `M`: `trace(D·M)`. -/
def densTot {n : ℕ} (M D : Matrix (Fin n) (Fin n) ℚ) : ℚ :=
  Matrix.trace (D * M)

/-- Embedding of `dft.__normalize_dm` (dft.py:144-151): the density matrix is
rescaled by `normfactor = numel / dens_tot`, unconditionally. -/
def normalize_dm {n : ℕ} (M : Matrix (Fin n) (Fin n) ℚ) (numel : ℚ)
    (dm : Matrix (Fin n) (Fin n) ℚ) : Matrix (Fin n) (Fin n) ℚ :=
  (numel / densTot M dm) • dm

/-- Embedding of the density-matrix construction in `dft.__fock_to_dm`
(dft.py:124): `dm = torch.einsum("...po,...qo->...pq", eigvecs, eigvecs)`,
i.e. `dm p q = Σ_o (v_o p) * (v_o q)` over the occupied orbital columns
`v_o` of `eigvecs`. -/
def dmFromEigvecs {n : ℕ} (eigvecs : List (Fin n → ℚ)) :
    Matrix (Fin n) (Fin n) ℚ :=
  Matrix.of fun p q => (eigvecs.map fun v => v p * v q).sum

/-- The density matrix described by the words of the spec: `D = 2·Σᵢ vᵢvᵢᵗ`
(spec §4.2), to be compared with `dmFromEigvecs`. -/
def dmFromEigvecsSpec {n : ℕ} (eigvecs : List (Fin n → ℚ)) :
    Matrix (Fin n) (Fin n) ℚ :=
  Matrix.of fun p q => 2 * (eigvecs.map fun v => v p * v q).sum

/-- Embedding of `dft.__get_eks_model` (dft.py:172-181). The argument is
either a string naming the model, an existing `BaseEKS` instance, or
something else (raising `TypeError`). -/
inductive EksArg : Type
  | str (s : String)
  | baseEks (id : ℕ)
  | other
deriving DecidableEq

/-- The exchange-correlation models the setup can return. -/
inductive EksModel : Type
  | xlda
  | custom (id : ℕ)
deriving DecidableEq

def get_eks_model : EksArg → Except String EksModel
  | EksArg.str s =>
      if s = "lda" then Except.ok EksModel.xlda
      else Except.error ("Unknown eks model: " ++ s)
  | EksArg.baseEks id => Except.ok (EksModel.custom id)
  | EksArg.other => Except.error "eks_model must be a BaseEKS or a string"

/-- Embedding of `dft.__get_default_eigen_options` (dft.py:201-206):
`nsize = hmodel.shape[-1] * hmodel.shape[-2]`; the default method is
`"exacteig"` when `nsize < 100`, otherwise no default is set (the solver
default, the iterative strategy, applies). -/
def getDefaultEigenMethod (shape1 shape2 : ℕ) : Option String :=
  if shape1 * shape2 < 100 then some "exacteig" else none

/-- Embedding of `dft.__get_default_solve_options` (dft.py:208-215):
`"exactsolve"` when `nsize < 20`, otherwise `None` (let xitorch decide). -/
def getDefaultSolveMethod (shape1 shape2 : ℕ) : Option String :=
  if shape1 * shape2 < 20 then some "exactsolve" else none

/-- Embedding of `dft.density` (dft.py:100-102): returns the converged
self-consistent density only when `gridpts` is `None`; for any other
argument the function body falls through and Python returns `None`. -/
def density {D G : Type} (scfDensity : D) (gridpts : Option G) : Option D :=
  match gridpts with
  | none => some scfDensity
  | some _ => none

/-! ## The generic iterative optimizer (`ddft/modules/optimize.py`) -/

/-- Embedding of the optimizer-class dispatch in `_ForwardOpt.forward`
(optimize.py:55-64): `method.lower()` selects `torch.optim.LBFGS` or
`torch.optim.SGD` together with the keyword list `opt_kwds`; for any other
name neither branch assigns `opt_cls`/`opt_kwds`, so the very next line
raises `NameError` — before the optimization loop is entered. -/
def strToLower (s : String) : String := String.mk (s.data.map Char.toLower)

/-- The dispatch itself; `strToLower` above models the Python `str.lower()` call. -/
def selectOptimizer (method : String) : Except String (List String) :=
  let m := strToLower method
  if m = "lbfgs" then Except.ok ["lr"]
  else if m = "sgd" then
    Except.ok ["lr", "momentum", "dampening", "weight_decay", "nesterov"]
  else Except.error "NameError: name opt_kwds is not defined"

/-- The iteration loop of `_ForwardOpt.forward` (optimize.py:66-80): starting
from a detached copy of `x0`, `opt.step(closure)` is applied `max_niter`
times, where the objective of the closure is `model(x, y) * mult` with `y` held
fixed. The optimizer update itself (torch.optim internals, external to this
repository) is the opaque `step` argument. -/
def forwardOptIterate {X Y : Type} (model : X → Y → ℚ) (mult : ℚ)
    (step : (X → ℚ) → X → X) (maxNiter : ℕ) (x0 : X) (y : Y) : X :=
  Nat.iterate (step fun x => model x y * mult) maxNiter x0

/-- Embedding of `_ForwardOpt.forward` (optimize.py:43-90): select the
optimizer (failing on an unknown method name), run the loop, then return
`(zopt, xopt)` with `zopt = model(xopt, y)`. -/
def forwardOptForward {X Y : Type} (model : X → Y → ℚ) (mult : ℚ)
    (step : (X → ℚ) → X → X) (method : String) (maxNiter : ℕ)
    (x0 : X) (y : Y) : Except String (ℚ × X) := do
  let _kwds ← selectOptimizer method
  let xopt := forwardOptIterate model mult step maxNiter x0 y
  pure (model xopt y, xopt)

/-- Embedding of `_ForwardOpt.backward` (optimize.py:92-94): it returns
`(None, None, None, None, None)` — a `None` gradient for each of
`model`, `mult`, `x0`, `fwd_options` and `yparams` — and never raises. -/
def forwardOptBackward (gradZopt : ℚ) (gradXopt : List (List ℚ)) :
    Except String (Option ℚ × Option ℚ × Option ℚ × Option ℚ × Option ℚ) :=
  Except.ok (none, none, none, none, none)

/-- The test `torch.allclose(gx, gx*0)` with default tolerances
(`rtol = 1e-5`, `atol = 1e-8`): since the reference is zero, the relative
part vanishes and the test is `|gx_i| ≤ 1e-8` for every component. -/
def allcloseZero (g : List ℚ) : Bool :=
  g.all fun x => decide (|x| ≤ 1 / 100000000)

/-- Embedding of `_BackwardOpt.backward` (optimize.py:105-116): if every
incoming gradient through `x*` is (within `allclose` tolerance) zero, pass
`grad_zopt` through; otherwise raise
`RuntimeError("Unimplemented gradient contribution from the argmin")`.
Note: `_BackwardOpt` is never applied — its invocation in
`OptimizationModule.forward` (optimize.py:35-37) is commented out. -/
def backwardOptBackward (gradZopt : ℚ) (gradXopt : List (List ℚ)) :
    Except String (Option ℚ × Option ℚ × Option ℚ) :=
  if gradXopt.all allcloseZero then Except.ok (some gradZopt, none, none)
  else Except.error "Unimplemented gradient contribution from the argmin"

/-- Embedding of `OptimizationModule.forward` (optimize.py:28-39): run
`_ForwardOpt.apply`; in training mode, discard the value it returned and
recompute `zopt = self.model(xopt, yparams)` afresh (the `_BackwardOpt`
wrapping is commented out), so the only backward node attached to `xopt`
is `_ForwardOpt`. -/
def optimizationModuleForward {X Y : Type} (model : X → Y → ℚ)
    (minimize : Bool) (step : (X → ℚ) → X → X) (method : String)
    (maxNiter : ℕ) (training : Bool) (x0 : X) (y : Y) :
    Except String (ℚ × X) := do
  let mult : ℚ := if minimize then 1 else -1
  let res ← forwardOptForward model mult step method maxNiter x0 y
  let xopt := res.2
  let zopt := if training then model xopt y else res.1
  pure (zopt, xopt)

/-! ## Angular-momentum perturbation (`ddft/hamiltons/hatomygauss.py`) -/

/-- The "small noise epsilon" of `HamiltonAtomYGauss.__init__`
(hatomygauss.py:114-125): `noise = j * eps + angmom * eps2` with
`eps = 1e-9`, `eps2 = 1e-8`. -/
def lhatNoise (angmom : ℕ) (j : ℤ) : ℚ :=
  (j : ℚ) * (1 / 1000000000) + (angmom : ℚ) * (1 / 100000000)

/-- One entry of the angular-momentum factor list:
`angmom * (angmom + 1) + noise`. -/
def lhatEntry (angmom : ℕ) (j : ℤ) : ℚ :=
  (angmom : ℚ) * ((angmom : ℚ) + 1) + lhatNoise angmom j

/-- Embedding of the `lhat` construction loop (hatomygauss.py:114-125):
for `angmom` in `0..maxangmom` and `j` in `-angmom..angmom`, append
`angmom*(angmom+1) + j*1e-9 + angmom*1e-8`. -/
def lhat (maxangmom : ℕ) : List ℚ :=
  (List.range (maxangmom + 1)).flatMap fun angmom =>
    (List.range (2 * angmom + 1)).map fun (k : ℕ) =>
      lhatEntry angmom ((k : ℤ) - (angmom : ℤ))

/-! ## Radial-grid interpolation (`ddft/grids/radialgrid.py`) -/

/-- The masked scatter at the end of `LegendreRadialTransform.interpolate`
(radialgrid.py:106-116): `frq` starts as zeros, positions with
`rq ≤ rmax` receive the interpolated values in order, and positions with
`rq > rmax` receive the extrapolated value when `extrap` is given and stay
`0` otherwise. -/
def scatterInterp (rmax : ℚ) (extrap : Option (ℚ → ℚ)) :
    List ℚ → List ℚ → List ℚ
  | [], _ => []
  | r :: rs, vals =>
      if r ≤ rmax then
        vals.headD 0 :: scatterInterp rmax extrap rs vals.tail
      else
        (match extrap with
         | some e => e r
         | none => 0) :: scatterInterp rmax extrap rs vals

/-- Embedding of `LegendreRadialTransform.interpolate` (radialgrid.py:79-116)
for one batch row. `rq` is the list of query radii (`rq[:,0]`) and `rmax`
the maximum grid radius. Modelled from the spec: the cubic-spline kernel
`self.interpolator.interp` (in `ddft/utils/interp`, outside the provided
sources) evaluates the spline of the fixed sample `f` pointwise at each
transformed query point; it is therefore the opaque pointwise function
`interp1`, composed with the opaque coordinate transform `invtransform`
(`self.transformobj.invtransform`). The control flow — filtering the
in-range points, the all-in-range fast path, and the zero-filled scatter —
is taken from the source. -/
def interpolate (interp1 : ℚ → ℚ) (invtransform : ℚ → ℚ) (rmax : ℚ)
    (rq : List ℚ) (extrap : Option (ℚ → ℚ)) : List ℚ :=
  let rqinterp := rq.filter fun r => decide (r ≤ rmax)
  let frqinterp := rqinterp.map fun r => interp1 (invtransform r)
  if rq.all (fun r => decide (r ≤ rmax)) then frqinterp
  else scatterInterp rmax extrap rq frqinterp

/-! ## Claims C1, C3, C4: density-matrix construction and normalization -/

/-- C1: for every density matrix `D` (with a nondegenerate denominator,
cf. C4) and target particle count, `__normalize_dm` is a pure scalar rescale
of `D` by the single factor `target_count / trace(D·M)`, and the returned
matrix traces against the overlap operator to exactly the target count
(hence `|trace(D·M) − target_count| < tol` for any positive tolerance). -/
theorem normalize_dm_rescale_hits_target {n : ℕ}
    (M D : Matrix (Fin n) (Fin n) ℚ) (numel : ℚ)
    (h : densTot M D ≠ 0) :
    normalize_dm M numel D = (numel / Matrix.trace (D * M)) • D ∧
    densTot M (normalize_dm M numel D) = numel := by
  refine ⟨rfl, ?_⟩
  unfold normalize_dm densTot
  rw [Matrix.smul_mul, Matrix.trace_smul, smul_eq_mul]
  exact div_mul_cancel₀ numel h

/-- Witness for C1 at `n = 1`, `M = D = 1`, `numel = 2`. -/
theorem normalize_dm_rescale_hits_target_witness :
    normalize_dm (1 : Matrix (Fin 1) (Fin 1) ℚ) 2 1 =
      ((2 : ℚ) / Matrix.trace ((1 : Matrix (Fin 1) (Fin 1) ℚ) * 1)) • 1 ∧
    densTot (1 : Matrix (Fin 1) (Fin 1) ℚ)
      (normalize_dm (1 : Matrix (Fin 1) (Fin 1) ℚ) 2 1) = 2 := by
  have h : densTot (1 : Matrix (Fin 1) (Fin 1) ℚ) 1 ≠ 0 := by
    simp [densTot]
  exact normalize_dm_rescale_hits_target 1 1 2 h

/-- C3 counterexample: for the single occupied orbital `v = (1)` in a
one-dimensional basis, the constructor in the code gives `D₀₀ = 1`, whereas the
spec formula `2·Σᵢ vᵢvᵢᵗ` gives `2`. -/
theorem dm_missing_factor2_cex :
    dmFromEigvecs [(fun _ => 1 : Fin 1 → ℚ)] 0 0 = 1 ∧
    dmFromEigvecsSpec [(fun _ => 1 : Fin 1 → ℚ)] 0 0 = 2 ∧
    dmFromEigvecs [(fun _ => 1 : Fin 1 → ℚ)] 0 0 ≠
      dmFromEigvecsSpec [(fun _ => 1 : Fin 1 → ℚ)] 0 0 := by
  refine ⟨?_, ?_, ?_⟩ <;> norm_num [dmFromEigvecs, dmFromEigvecsSpec]

/-- C3 amended: the density-matrix constructor builds `D = Σᵢ vᵢvᵢᵗ` — the
sum of outer products of the occupied orbitals with no factor 2 — before
normalization; the closed-shell double occupancy enters only through
`norb = numel / 2` and the subsequent normalization of the trace to the
full electron count. -/
theorem dmFromEigvecs_eq_sum_outer {n : ℕ} (eigvecs : List (Fin n → ℚ)) :
    dmFromEigvecs eigvecs = (eigvecs.map fun v => Matrix.vecMulVec v v).sum := by
  induction eigvecs with
  | nil =>
      ext p q
      simp [dmFromEigvecs]
  | cons v vs ih =>
      ext p q
      have hih := congrFun (congrFun ih p) q
      simp only [dmFromEigvecs, Matrix.of_apply, List.map_cons, List.sum_cons] at hih ⊢
      rw [Matrix.add_apply, Matrix.vecMulVec_apply, hih]

/-- C4: at a density matrix whose normalization denominator `trace(D·M)`
is exactly zero (here `D = diag(1, -1)`, `M = 1`), `__normalize_dm` does not
signal any error: it performs the scalar division anyway and returns the
rescaled matrix (in floating point, `numel / 0` is `±Inf`/`NaN`; in this
exact embedding `2 / 0 • D = 0`). The embedding of `__normalize_dm` is a
total function — the source has no check and no raise on this path. -/
theorem normalize_dm_zero_denominator_divides :
    densTot (1 : Matrix (Fin 2) (Fin 2) ℚ) (Matrix.diagonal ![1, -1]) = 0 ∧
    normalize_dm (1 : Matrix (Fin 2) (Fin 2) ℚ) 2 (Matrix.diagonal ![1, -1]) =
      ((2 : ℚ) / 0) • Matrix.diagonal ![1, -1] ∧
    Matrix.diagonal ![(1 : ℚ), -1] ≠ 0 := by
  have h0 : densTot (1 : Matrix (Fin 2) (Fin 2) ℚ) (Matrix.diagonal ![1, -1]) = 0 := by
    simp [densTot, Matrix.trace_diagonal, Fin.sum_univ_two]
  refine ⟨h0, ?_, ?_⟩
  · show ((2 : ℚ) / densTot (1 : Matrix (Fin 2) (Fin 2) ℚ) (Matrix.diagonal ![1, -1])) •
      Matrix.diagonal ![(1 : ℚ), -1] = _
    rw [h0]
  · intro hcontra
    have := congrFun (congrFun hcontra 0) 0
    simp [Matrix.diagonal] at this

/-! ## Claims C2, C5: the backward policy of the optimizer and training forward -/

/-- C2 counterexample: with a deliberately nonzero gradient contribution
through `x*` (`grad_xopt = [[1]]`), the backward pass actually wired into
`OptimizationModule` — `_ForwardOpt.backward`, since the `_BackwardOpt`
wrapping is commented out — returns plain `None` gradients and raises no
unimplemented-gradient error. -/
theorem optmodule_backward_silent_nonzero_cex :
    ([[(1 : ℚ)]].all allcloseZero) = false ∧
    forwardOptBackward 1 [[1]] = Except.ok (none, none, none, none, none) := by
  constructor
  · simp [allcloseZero]
    norm_num
  · rfl

/-- C2 amended: the effective backward of `OptimizationModule`
(`_ForwardOpt.backward`) never raises — it returns `None` for every input,
silently discarding any gradient contribution through `x*`. The
unimplemented-gradient error exists only in the never-applied
`_BackwardOpt.backward`, which raises exactly when some contribution fails
the `allclose`-to-zero test and passes `grad_zopt` through otherwise. -/
theorem optimization_backward_policy (gz : ℚ) (gxs : List (List ℚ)) :
    forwardOptBackward gz gxs = Except.ok (none, none, none, none, none) ∧
    (gxs.all allcloseZero = true →
      backwardOptBackward gz gxs = Except.ok (some gz, none, none)) ∧
    (gxs.all allcloseZero = false →
      backwardOptBackward gz gxs =
        Except.error "Unimplemented gradient contribution from the argmin") := by
  refine ⟨rfl, ?_, ?_⟩
  · intro h
    simp [backwardOptBackward, h]
  · intro h
    simp [backwardOptBackward, h]

/-- Witness for the amended C2 theorem at zero and nonzero `x*` gradients. -/
theorem optimization_backward_policy_witness :
    backwardOptBackward 1 [[0]] = Except.ok (some 1, none, none) ∧
    backwardOptBackward 1 [[1]] =
      Except.error "Unimplemented gradient contribution from the argmin" :=
  ⟨(optimization_backward_policy 1 [[0]]).2.1 (by simp [allcloseZero]),
   (optimization_backward_policy 1 [[1]]).2.2 (by simp [allcloseZero]; norm_num)⟩

/-- C5: in training mode, for every input `(x0, y)` (and any optimizer
internals `step` and valid method name), the optimum value returned by
`OptimizationModule.forward` is the fresh re-evaluation `model(x*, y)` of
the model at the argmin `x*` produced by the inner `_ForwardOpt` iteration;
and the inner forward optimization propagates no gradient to any of its
inputs: its backward returns `None` for `model`, `mult`, `x0`,
`fwd_options` and `yparams` alike. -/
theorem training_forward_reevaluates_model {X Y : Type}
    (model : X → Y → ℚ) (minimize : Bool) (step : (X → ℚ) → X → X)
    (method : String) (maxNiter : ℕ) (x0 : X) (y : Y)
    (kwds : List String) (hsel : selectOptimizer method = Except.ok kwds) :
    optimizationModuleForward model minimize step method maxNiter true x0 y =
      Except.ok
        (model (forwardOptIterate model (if minimize then 1 else -1) step maxNiter x0 y) y,
         forwardOptIterate model (if minimize then 1 else -1) step maxNiter x0 y) ∧
    ∀ (gz : ℚ) (gxs : List (List ℚ)),
      forwardOptBackward gz gxs = Except.ok (none, none, none, none, none) := by
  refine ⟨?_, fun _ _ => rfl⟩
  simp [optimizationModuleForward, forwardOptForward, hsel]

/-- Witness for C5 with `model (x, y) = x + y`, a trivial `step`,
`method = "lbfgs"`, zero iterations, `x0 = 5`, `y = 3`. -/
theorem training_forward_reevaluates_model_witness :
    optimizationModuleForward (fun (x y : ℚ) => x + y) true (fun _ x => x) "lbfgs" 0 true 5 3 =
      Except.ok
        ((fun (x y : ℚ) => x + y)
           (forwardOptIterate (fun (x y : ℚ) => x + y) (if true then 1 else -1)
             (fun _ x => x) 0 5 3) 3,
         forwardOptIterate (fun (x y : ℚ) => x + y) (if true then 1 else -1)
           (fun _ x => x) 0 5 3) ∧
    ∀ (gz : ℚ) (gxs : List (List ℚ)),
      forwardOptBackward gz gxs = Except.ok (none, none, none, none, none) :=
  training_forward_reevaluates_model (fun x y => x + y) true (fun _ x => x)
    "lbfgs" 0 5 3 ["lr"] (by simp [selectOptimizer, strToLower])

/-! ## Claim C8: invalid configurations fail at call time -/

/-- C8: an unsupported optimizer method name makes `_ForwardOpt.forward`
fail (the `NameError` on the undefined `opt_kwds`) before the optimization
loop runs — the `Except.error` short-circuits, so no iterate is produced —
and an unknown exchange-correlation model name makes `dft.__get_eks_model`
raise `RuntimeError` during setup, before the SCF iteration starts. -/
theorem invalid_config_fails_before_iteration {X Y : Type}
    (model : X → Y → ℚ) (mult : ℚ) (step : (X → ℚ) → X → X)
    (method : String) (maxNiter : ℕ) (x0 : X) (y : Y) (s : String)
    (hm1 : strToLower method ≠ "lbfgs") (hm2 : strToLower method ≠ "sgd")
    (hs : s ≠ "lda") :
    forwardOptForward model mult step method maxNiter x0 y =
      Except.error "NameError: name opt_kwds is not defined" ∧
    get_eks_model (EksArg.str s) = Except.error ("Unknown eks model: " ++ s) := by
  constructor
  · simp [forwardOptForward, selectOptimizer, hm1, hm2]
  · simp [get_eks_model, hs]

/-- Witness for C8 at `method = "adam"` and `eks_model = "gga"`. -/
theorem invalid_config_fails_before_iteration_witness :
    forwardOptForward (fun (x y : ℚ) => x + y) 1 (fun _ x => x) "adam" 3 0 0 =
      Except.error "NameError: name opt_kwds is not defined" ∧
    get_eks_model (EksArg.str "gga") = Except.error ("Unknown eks model: " ++ "gga") :=
  invalid_config_fails_before_iteration (fun x y => x + y) 1 (fun _ x => x)
    "adam" 3 0 0 "gga" (by decide) (by decide) (by decide)

/-! ## Claim C6: default eigensolver strategy selection -/

/-- C6 counterexample: for a system of total basis dimension 50 — below the
claimed threshold of 100 — the default eigensolver method is *not* the
exact dense strategy: the code compares `shape[-1]*shape[-2] = 2500`
against 100, not the basis dimension itself. -/
theorem default_eigen_threshold_cex :
    (50 : ℕ) < 100 ∧ getDefaultEigenMethod 50 50 = none := by
  constructor
  · decide
  · rfl

/-- C6 amended: when no eigensolver method is supplied, the exact dense
strategy (`"exacteig"`) is selected by default exactly when
`shape[-1] * shape[-2]` — the number of entries of the Fock matrix, i.e.
the square of the total basis dimension — is below 100; otherwise no
default method is set and the solver default (the iterative
strategy) applies. -/
theorem default_eigen_method_iff (shape1 shape2 : ℕ) :
    getDefaultEigenMethod shape1 shape2 = some "exacteig" ↔
      shape1 * shape2 < 100 := by
  unfold getDefaultEigenMethod
  split
  · simp_all
  · simp_all

/-! ## Claim C9: the public density accessor -/

/-- C9: `dft.density` returns the converged self-consistent density only
when called with `gridpts` omitted or `None`; for every non-`None`
`gridpts` the function body falls through and returns `None`. -/
theorem density_gridpts_returns_none {D G : Type} (scf : D) (p : G) :
    density scf (some p) = none ∧ density scf (none : Option G) = some scf :=
  ⟨rfl, rfl⟩

/-! ## Claim C7: deterministic symmetry-breaking perturbation -/

/-- Peeling off the last angular momentum block of `lhat`. -/
theorem lhat_succ (m : ℕ) :
    lhat (m + 1) = lhat m ++ (List.range (2 * (m + 1) + 1)).map
      (fun (k : ℕ) => lhatEntry (m + 1) ((k : ℤ) - ((m + 1) : ℤ))) := by
  unfold lhat
  rw [List.range_succ, List.flatMap_append]
  simp

/-- The list `lhat` has one entry per spherical-harmonic direction:
`Σ_{l ≤ m} (2l+1) = (m+1)²`. -/
theorem lhat_length (m : ℕ) : (lhat m).length = (m + 1) * (m + 1) := by
  induction m with
  | zero => rfl
  | succ m ih =>
      rw [lhat_succ, List.length_append, ih, List.length_map, List.length_range]
      ring

/-- The entry of `lhat` at the position of direction `(l, j)` with
`j = k − l`, `0 ≤ k ≤ 2l`, is `lhatEntry l (k − l)`. -/
theorem lhat_get (m l k : ℕ) (hl : l ≤ m) (hk : k ≤ 2 * l) :
    (lhat m)[l * l + k]? = some (lhatEntry l ((k : ℤ) - (l : ℤ))) := by
  induction m with
  | zero =>
      have hl0 : l = 0 := Nat.le_zero.mp hl
      subst hl0
      have hk0 : k = 0 := Nat.le_zero.mp hk
      subst hk0
      rfl
  | succ m ih =>
      by_cases h : l ≤ m
      · rw [lhat_succ, List.getElem?_append_left]
        · exact ih h
        · rw [lhat_length]
          calc l * l + k ≤ l * l + 2 * l := by omega
            _ < (l + 1) * (l + 1) := by nlinarith
            _ ≤ (m + 1) * (m + 1) := Nat.mul_le_mul (by omega) (by omega)
      · have hlm : l = m + 1 := by omega
        subst hlm
        rw [lhat_succ, List.getElem?_append_right]
        · rw [lhat_length, Nat.add_sub_cancel_left]
          have hklt : k < 2 * (m + 1) + 1 := by omega
          simp [List.getElem?_map, List.getElem?_range, hklt]
        · rw [lhat_length]
          omega

/-- C7: the tiny symmetry-breaking perturbation is deterministic and
reproducible — the angular-momentum factor list is fully characterized,
entry by entry, as a fixed function of the direction indices: it has
exactly `(maxangmom+1)²` entries and the entry for direction `(l, j)` with
`j = k − l` equals `l·(l+1) + j·1e-9 + l·1e-8`, with no randomness, so any
two constructions with the same `maxangmom` produce identical factors. -/
theorem lhat_deterministic_formula (m l k : ℕ) (hl : l ≤ m) (hk : k ≤ 2 * l) :
    (lhat m).length = (m + 1) * (m + 1) ∧
    (lhat m)[l * l + k]? =
      some ((l : ℚ) * ((l : ℚ) + 1) +
        (((((k : ℤ) - (l : ℤ)) : ℤ) : ℚ) * (1 / 1000000000) +
         (l : ℚ) * (1 / 100000000))) :=
  ⟨lhat_length m, lhat_get m l k hl hk⟩

/-- Witness for C7 at `maxangmom = 1`, direction `(l, j) = (1, −1)`. -/
theorem lhat_deterministic_formula_witness :
    (lhat 1).length = (1 + 1) * (1 + 1) ∧
    (lhat 1)[1 * 1 + 0]? =
      some ((((1 : ℕ)) : ℚ) * ((((1 : ℕ)) : ℚ) + 1) +
        ((((((0 : ℕ)) : ℤ) - (((1 : ℕ)) : ℤ) : ℤ) : ℚ) * (1 / 1000000000) +
         (((1 : ℕ)) : ℚ) * (1 / 100000000))) :=
  lhat_deterministic_formula 1 1 0 (by decide) (by decide)

/-! ## Claim C10: radial interpolation with zero extrapolation -/

/-- The zero-filled scatter of interpolated values back into query order:
with no extrapolation function, scattering the interpolated values of the
in-range points over the filtered positions is pointwise selection. -/
theorem scatterInterp_filter_map (rmax : ℚ) (g : ℚ → ℚ) (rq : List ℚ) :
    scatterInterp rmax none rq ((rq.filter fun r => decide (r ≤ rmax)).map g) =
      rq.map fun r => if r ≤ rmax then g r else 0 := by
  induction rq with
  | nil => rfl
  | cons r rs ih =>
      by_cases h : r ≤ rmax
      · rw [List.filter_cons]
        unfold scatterInterp
        simp [h, ih]
      · rw [List.filter_cons]
        unfold scatterInterp
        simp [h, ih]

/-- C10: with `extrap = None`, `interpolate` returns, at every query point
with radius at most the maximum grid radius, the (cubic-spline)
interpolated value `interp1 (invtransform r)` of the sample, and exactly
`0` at every query point whose radius exceeds the maximum radius — for
both the all-in-range fast path and the masked-scatter path. -/
theorem interpolate_routing (interp1 invtransform : ℚ → ℚ) (rmax : ℚ)
    (rq : List ℚ) :
    interpolate interp1 invtransform rmax rq none =
      rq.map fun r => if r ≤ rmax then interp1 (invtransform r) else 0 := by
  unfold interpolate
  by_cases hall : rq.all (fun r => decide (r ≤ rmax)) = true
  · simp only [hall, if_true]
    have hfilter : rq.filter (fun r => decide (r ≤ rmax)) = rq := by
      rw [List.filter_eq_self]
      exact List.all_eq_true.mp hall
    rw [hfilter]
    apply List.map_congr_left
    intro a ha
    have haa : a ≤ rmax := by
      have := List.all_eq_true.mp hall a ha
      simpa using this
    rw [if_pos haa]
  · simp only [hall, if_false]
    exact scatterInterp_filter_map rmax (fun r => interp1 (invtransform r)) rq

end Ddft
